import Mathlib

/-!
Verification development for the community-app API backend
(authority resolution, notification fan-out, and related route logic).

The definitions below are a shallow embedding of the TypeScript source:
the relational tables become lists of records, SQL statements become
list operations, and each route handler / service method becomes a pure
function from a database state (plus request data) to a result value and
a new database state.  All definitions are executable.
-/

/-- Authority reference row (`authorities` table), as in the
`Authority` interface of the authority service. -/
structure Authority where
  id : Nat
  category_id : Nat
  name : String
  display_name : String
  level : Int
  is_active : Bool
  created_at : Nat
deriving Repr, DecidableEq

/-- Authority category reference row (`authority_categories` table). -/
structure AuthorityCategory where
  id : Nat
  name : String
deriving Repr, DecidableEq

/-- Join row between users and authorities (`user_authorities` table),
as in the `UserAuthority` interface. -/
structure UserAuthority where
  id : Nat
  user_id : Nat
  authority_id : Nat
  assigned_at : Nat
  assigned_by : Option Nat
  is_active : Bool
deriving Repr, DecidableEq

/-- User row (`users` table), restricted to the columns the embedded
operations read. -/
structure UserRow where
  id : Nat
  name : String
  fcm_token : Option String
deriving Repr, DecidableEq

/-- Notification row (`notifications` table). -/
structure NotificationRow where
  id : Nat
  user_id : Nat
  title : String
  message : String
  ntype : String
  related_id : Option Nat
  sender_id : Option Nat
  sender_name : Option String
  is_read : Bool
deriving Repr, DecidableEq

/-- Database state: the tables the embedded operations touch. -/
structure Db where
  users : List UserRow
  authorities : List Authority
  authority_categories : List AuthorityCategory
  user_authorities : List UserAuthority
  notifications : List NotificationRow
deriving Repr, DecidableEq

/-- Resolved authority set (`UserAuthoritiesResponse` interface). -/
structure UserAuthoritiesResponse where
  userId : Nat
  userName : String
  authorities : List Authority
  highestAuthorityLevel : Int
  authorityDisplayNames : String
deriving Repr, DecidableEq

/-- Active user-authority assignments of one user
(the `LEFT JOIN user_authorities ua ON u.id = ua.user_id AND
ua.is_active = TRUE` part of the resolution query). -/
def activeAssignments (db : Db) (userId : Nat) : List UserAuthority :=
  db.user_authorities.filter (fun ua => ua.user_id == userId && ua.is_active)

/-- Ordering used by `ORDER BY a.level ASC` on the left-joined rows:
rows whose authority columns are NULL sort first (MySQL NULLs-first on
ascending order), the rest ascending by level. -/
def rowLevelLE (x y : Option Authority) : Bool :=
  match x, y with
  | none, _ => true
  | some _, none => false
  | some a, some b => a.level ≤ b.level

/-- Insertion step of the sort modelling `ORDER BY a.level ASC`. -/
def insertByLevel (r : Option Authority) :
    List (Option Authority) → List (Option Authority)
  | [] => [r]
  | s :: ss => if rowLevelLE r s then r :: s :: ss else s :: insertByLevel r ss

/-- Sort modelling `ORDER BY a.level ASC` (a stable sort; the claims
depend only on the multiset of rows). -/
def sortByLevel : List (Option Authority) → List (Option Authority)
  | [] => []
  | r :: rs => insertByLevel r (sortByLevel rs)

/-- The authority columns of the resolution query's rows for one user:
each active assignment is left-joined to its `authorities` row
(`LEFT JOIN authorities a ON ua.authority_id = a.id`), and the rows are
ordered by ascending level. -/
def authorityRows (db : Db) (userId : Nat) : List (Option Authority) :=
  sortByLevel ((activeAssignments db userId).map
    (fun ua => db.authorities.find? (fun a => a.id == ua.authority_id)))

/-- The `for (const row of userRows) if (row.authority_id) authorities.push(...)`
loop: keep the rows whose authority columns are present (a NULL or zero
`authority_id` is falsy in the source and is skipped). -/
def resolvedFromRows (rows : List (Option Authority)) : List Authority :=
  rows.filterMap (fun o =>
    match o with
    | some a => if a.id ≠ 0 then some a else none
    | none => none)

/-- AuthorityService.getDefaultAuthority: the `authorities` row named
LEADER whose category is the `authority_categories` row named MINISTRY
(`LIMIT 1` becomes the first match). -/
def getDefaultAuthority (db : Db) : Option Authority :=
  match db.authority_categories.find? (fun c => c.name == "MINISTRY") with
  | none => none
  | some c => db.authorities.find? (fun a => a.name == "LEADER" && a.category_id == c.id)

/-- The `authorities.length > 0 ? Math.min(...) : 999` computation. -/
def highestLevelOf (auths : List Authority) : Int :=
  match auths.map Authority.level with
  | [] => 999
  | l :: ls => ls.foldl min l

/-- The `authorities` collection built by getUserAuthorities: the
active-assignment rows joined to their authority records and, when that
list is empty, the default-LEADER fallback (`if (authorities.length ===
0) ... authorities.push(defaultAuthority)`; when even the default lookup
fails the collection stays empty). -/
def resolvedAuths (db : Db) (userId : Nat) : List Authority :=
  let auths0 := resolvedFromRows (authorityRows db userId)
  if auths0.isEmpty then
    match getDefaultAuthority db with
    | some d => [d]
    | none => []
  else auths0

/-- AuthorityService.getUserAuthorities: resolve a user's authority set.
Returns `none` when the user row does not exist (the query returns zero
rows); otherwise builds the active-authority list, falls back to the
default LEADER authority when it is empty, and computes the minimum
level and the joined display string. -/
def getUserAuthorities (db : Db) (userId : Nat) : Option UserAuthoritiesResponse :=
  match db.users.find? (fun u => u.id == userId) with
  | none => none
  | some u =>
    let auths := resolvedAuths db userId
    let displayNames := String.intercalate ", " (auths.map Authority.display_name)
    some {
      userId := u.id
      userName := u.name
      authorities := auths
      highestAuthorityLevel := highestLevelOf auths
      authorityDisplayNames := if displayNames == "" then "리더" else displayNames }

/-- Largest assignment id in use (auto-increment state of
`user_authorities`). -/
def maxAssignmentId (db : Db) : Nat :=
  db.user_authorities.foldl (fun m ua => max m ua.id) 0

/-- AuthorityService.addUserAuthority.  The source issues
`INSERT INTO user_authorities ... ON DUPLICATE KEY UPDATE is_active = TRUE,
assigned_by = VALUES(assigned_by), assigned_at = CURRENT_TIMESTAMP`.
Modelled from the spec: the `user_authorities` table schema (its unique
key) is not part of the source tree; per the specification this is an
upsert keyed on the (user, authority) pair, so a duplicate of that pair
updates the existing row in place and anything else inserts a fresh
active row.  `now` stands for CURRENT_TIMESTAMP. -/
def addUserAuthority (db : Db) (userId authorityId assignedBy now : Nat) : Db :=
  if db.user_authorities.any
      (fun ua => ua.user_id == userId && ua.authority_id == authorityId) then
    { db with user_authorities := db.user_authorities.map (fun ua =>
        if ua.user_id == userId && ua.authority_id == authorityId then
          { ua with is_active := true, assigned_by := some assignedBy, assigned_at := now }
        else ua) }
  else
    { db with user_authorities := db.user_authorities ++
        [{ id := maxAssignmentId db + 1, user_id := userId, authority_id := authorityId,
           assigned_at := now, assigned_by := some assignedBy, is_active := true }] }

/-- AuthorityService.removeUserAuthority: `UPDATE user_authorities SET
is_active = FALSE WHERE user_id = ? AND authority_id = ?`; the method
returns true regardless of how many rows matched. -/
def removeUserAuthority (db : Db) (userId authorityId : Nat) : Db × Bool :=
  ({ db with user_authorities := db.user_authorities.map (fun ua =>
      if ua.user_id == userId && ua.authority_id == authorityId then
        { ua with is_active := false }
      else ua) }, true)

/-- Character class of the JavaScript whitespace that `String.trim`
removes (the forms that can occur in the token strings here). -/
def isJsWhitespace (c : Char) : Bool :=
  c == ' ' || c == '\t' || c == '\n' || c == '\r' ||
  c == '\x0b' || c == '\x0c' || c == '\u00A0'

/-- JavaScript `String.prototype.trim` on the character list of a
string: whitespace is removed from both ends. -/
def jsTrim (s : List Char) : List Char :=
  ((s.dropWhile isJsWhitespace).reverse.dropWhile isJsWhitespace).reverse

/-- The regular expression `^[a-zA-Z0-9_:-]+$` on one character. -/
def isFcmTokenChar (c : Char) : Bool :=
  ('a' ≤ c && c ≤ 'z') || ('A' ≤ c && c ≤ 'Z') ||
  ('0' ≤ c && c ≤ '9') || c == '_' || c == ':' || c == '-'

/-- JavaScript `String.prototype.toLowerCase` on an ASCII character
(sufficient for comparison against the all-ASCII denylist). -/
def jsToLowerChar (c : Char) : Char :=
  if 'A' ≤ c && c ≤ 'Z' then Char.ofNat (c.toNat + 32) else c

/-- The denylist of obviously-placeholder tokens from isValidFCMToken. -/
def placeholderTokens : List (List Char) :=
  ["invalid_token".data, "test_token".data, "dummy_token".data,
   "null".data, "undefined".data, "example_token".data]

/-- isValidFCMToken from the firebase utility module: non-empty, not
all-whitespace, length in [100, 300], only characters from
`[a-zA-Z0-9_:-]`, and its lowercase form not on the placeholder
denylist. -/
def isValidFCMToken (token : String) : Bool :=
  if token.data = [] then false
  else if jsTrim token.data = [] then false
  else if token.data.length < 100 ∨ token.data.length > 300 then false
  else if ¬ (token.data.all isFcmTokenChar = true) then false
  else if (token.data.map jsToLowerChar) ∈ placeholderTokens then false
  else true

/-- Result shape of FCMService.validateToken. -/
structure TokenValidation where
  isValid : Bool
  reason : Option String
deriving Repr, DecidableEq

/-- FCMService.validateToken: wraps isValidFCMToken with reason strings
(the empty and all-whitespace cases are re-checked first, as in the
source). -/
def validateToken (fcmToken : String) : TokenValidation :=
  if fcmToken.data = [] then
    { isValid := false, reason := some "토큰이 비어있거나 문자열이 아닙니다" }
  else if jsTrim fcmToken.data = [] then
    { isValid := false, reason := some "토큰이 빈 문자열입니다" }
  else if ¬ (isValidFCMToken fcmToken = true) then
    { isValid := false, reason := some "유효하지 않은 FCM 토큰 형식입니다" }
  else { isValid := true, reason := none }

/-- Recipient enumeration shared by the broadcast fan-outs:
`SELECT id, fcm_token FROM users WHERE fcm_token IS NOT NULL AND
fcm_token != ''`. -/
def usersWithToken (users : List UserRow) : List (UserRow × String) :=
  users.filterMap (fun u =>
    match u.fcm_token with
    | some t => if t ≠ "" then some (u, t) else none
    | none => none)

/-- The `title.length > limit ? title.substring(0, limit) + "..." : title`
truncation used for notification messages and push bodies. -/
def truncateWithEllipsis (limit : Nat) (s : String) : String :=
  if s.data.length > limit then ⟨s.data.take limit⟩ ++ "..." else s

/-- Unread-notification count of one user (`SELECT COUNT(*) FROM
notifications WHERE user_id = ? AND is_read = 0`). -/
def countUnread (rows : List NotificationRow) (userId : Nat) : Nat :=
  (rows.filter (fun n => n.user_id == userId && !n.is_read)).length

/-- Outcome of a broadcast content-creation notification phase: the
notification rows inserted, the per-recipient delivery batch
(recipient id, token, badge count), the advisory `warning` field of the
response, and the response's `success` flag. -/
structure FanoutResult where
  rows : List NotificationRow
  deliveries : List (Nat × String × Nat)
  warning : Option String
  success : Bool
deriving Repr, DecidableEq

/-- Warning string attached to the response when Firebase is not
initialized. -/
def fcmUnavailableWarning : String :=
  "Firebase 초기화 실패로 푸시 알림이 전송되지 않았습니다."

/-- Per-recipient loop of the notice fan-out: for every enumerated
recipient (any non-null, non-empty token), insert one notification row,
recompute that user's unread badge (seeing the rows inserted so far),
and record the (token, badge) pair for the delivery batch.  `existing`
is the notifications table before this recipient's insert; `nextId` the
auto-increment state. -/
def mkNoticeRow (noticeId : Nat) (noticeTitle : String) (nextId : Nat)
    (u : UserRow) : NotificationRow :=
  { id := nextId, user_id := u.id, title := "새 공지사항",
    message := truncateWithEllipsis 50 noticeTitle, ntype := "notice",
    related_id := some noticeId, sender_id := none, sender_name := none,
    is_read := false }

def noticeFanoutLoop (noticeId : Nat) (noticeTitle : String) (nextId : Nat)
    (existing : List NotificationRow) :
    List (UserRow × String) → List NotificationRow × List (Nat × String × Nat)
  | [] => ([], [])
  | (u, t) :: rest =>
    let row := mkNoticeRow noticeId noticeTitle nextId u
    let badge := countUnread (existing ++ [row]) u.id
    let next := noticeFanoutLoop noticeId noticeTitle (nextId + 1) (existing ++ [row]) rest
    (row :: next.1, (u.id, t, badge) :: next.2)

/-- Notification phase of POST /api/notices (after the notice itself is
committed): gated on FCMService.isAvailable, which when false yields a
successful response with a warning and no recipient enumeration;
otherwise every user with a non-null, non-empty token gets a
notification row and an entry in the per-token send batch (the notice
path performs no token-shape validation). -/
def noticeNotificationPhase (fcmAvailable : Bool) (db : Db)
    (noticeId : Nat) (noticeTitle : String) : FanoutResult :=
  if !fcmAvailable then
    { rows := [], deliveries := [], warning := some fcmUnavailableWarning,
      success := true }
  else
    let recipients := usersWithToken db.users
    let r := noticeFanoutLoop noticeId noticeTitle (db.notifications.foldl (fun m n => max m n.id) 0 + 1)
      db.notifications recipients
    { rows := r.1, deliveries := r.2, warning := none, success := true }

def mkTestimonyRow (testimonyId : Nat) (content : String) (nextId : Nat)
    (u : UserRow) : NotificationRow :=
  { id := nextId, user_id := u.id, title := "새로운 간증이 도착했어요",
    message := truncateWithEllipsis 50 content, ntype := "testimony",
    related_id := some testimonyId, sender_id := none, sender_name := none,
    is_read := false }

/-- Per-recipient loop of the testimony fan-out: recipients whose token
fails FCMService.validateToken are skipped entirely (`continue`): no
notification row and no delivery-batch entry; the rest get a row, a
badge recomputation, and a validTokenData entry. -/
def testimonyFanoutLoop (testimonyId : Nat) (content : String) (nextId : Nat)
    (existing : List NotificationRow) :
    List (UserRow × String) → List NotificationRow × List (Nat × String × Nat)
  | [] => ([], [])
  | (u, t) :: rest =>
    if (validateToken t).isValid then
      let row := mkTestimonyRow testimonyId content nextId u
      let badge := countUnread (existing ++ [row]) u.id
      let next := testimonyFanoutLoop testimonyId content (nextId + 1) (existing ++ [row]) rest
      (row :: next.1, (u.id, t, badge) :: next.2)
    else
      testimonyFanoutLoop testimonyId content nextId existing rest

/-- Notification phase of POST /api/testimonies (after the testimony is
committed): gated on FCMService.isAvailable exactly like the notice
path; when available, recipients are enumerated and each token is
validated before any per-recipient work. -/
def testimonyNotificationPhase (fcmAvailable : Bool) (db : Db)
    (testimonyId : Nat) (content : String) : FanoutResult :=
  if !fcmAvailable then
    { rows := [], deliveries := [], warning := some fcmUnavailableWarning,
      success := true }
  else
    let recipients := usersWithToken db.users
    let r := testimonyFanoutLoop testimonyId content (db.notifications.foldl (fun m n => max m n.id) 0 + 1)
      db.notifications recipients
    { rows := r.1, deliveries := r.2, warning := none, success := true }

/-- Result of POST /api/notifications: HTTP status, the response's
`success` flag, the notification rows inserted, and the scheduled push
sends (token, badge). -/
structure NotifPostResult where
  status : Nat
  success : Bool
  inserted : List NotificationRow
  deliveries : List (String × Nat)
deriving Repr, DecidableEq

/-- Valid notification types of POST /api/notifications. -/
def validNotificationTypes : List String :=
  ["like", "comment", "reply", "testimony", "system"]

/-- POST /api/notifications (targeted notification creation), after
authentication: required-field validation (JavaScript truthiness, so a
zero recipient id or empty string fails), type validation, recipient
existence check, the self-notification guard (`parseInt(recipient_id)
=== userId` returns success with no insert), then one insert, one badge
recomputation, and one scheduled push send when the recipient holds a
non-null, non-empty token. -/
def notificationsPost (db : Db) (actorId : Nat) (recipient_id : Nat)
    (title message ntype : String) (related_id : Option Nat) (nextId : Nat) :
    NotifPostResult :=
  if recipient_id == 0 || title == "" || message == "" || ntype == "" then
    { status := 400, success := false, inserted := [], deliveries := [] }
  else if ¬ (ntype ∈ validNotificationTypes) then
    { status := 400, success := false, inserted := [], deliveries := [] }
  else if (db.users.filter (fun u => u.id == recipient_id)).length == 0 then
    { status := 404, success := false, inserted := [], deliveries := [] }
  else if recipient_id == actorId then
    { status := 200, success := true, inserted := [], deliveries := [] }
  else
    let senderName :=
      match db.users.find? (fun u => u.id == actorId) with
      | some s => s.name
      | none => "알 수 없는 사용자"
    let row : NotificationRow :=
      { id := nextId, user_id := recipient_id, title := title, message := message,
        ntype := ntype, related_id := related_id, sender_id := some actorId,
        sender_name := some senderName, is_read := false }
    let badge := countUnread (db.notifications ++ [row]) recipient_id
    let tokenRows := db.users.filterMap (fun u =>
      if u.id == recipient_id then
        match u.fcm_token with
        | some t => if t ≠ "" then some t else none
        | none => none
      else none)
    { status := 200, success := true, inserted := [row],
      deliveries := match tokenRows with
        | [] => []
        | t :: _ => [(t, badge)] }

/-- Result of PATCH /api/notifications/[id]/read: HTTP status, the
response's `success` flag, the notifications table after the update, and
the returned unread count (absent on the 404 path). -/
structure PatchReadResult where
  status : Nat
  success : Bool
  notifications : List NotificationRow
  unread_count : Option Nat
deriving Repr, DecidableEq

/-- PATCH /api/notifications/[id]/read: `UPDATE notifications SET
is_read = 1 WHERE id = ? AND user_id = ? AND is_read = 0`; zero affected
rows yields a 404 error response, otherwise the user's unread count is
recomputed and returned. -/
def patchNotificationRead (db : Db) (userId : Nat) (notifId : Nat) : PatchReadResult :=
  let matched := db.notifications.filter
    (fun n => n.id == notifId && n.user_id == userId && !n.is_read)
  if matched.length == 0 then
    { status := 404, success := false, notifications := db.notifications,
      unread_count := none }
  else
    let updated := db.notifications.map (fun n =>
      if n.id == notifId && n.user_id == userId && !n.is_read then
        { n with is_read := true }
      else n)
    { status := 200, success := true, notifications := updated,
      unread_count := some (countUnread updated userId) }

/-- Like-relevant state of one notice: its `like_count` column and the
`notice_likes` rows (user ids) for it. -/
structure NoticeLikeState where
  like_count : Int
  notice_likes : List Nat
deriving Repr, DecidableEq

/-- Result of POST /api/notices/[id]/like: the new state, the response's
`liked` flag, and the `like_count` value returned to the caller. -/
structure LikeToggleResult where
  state : NoticeLikeState
  liked : Bool
  like_count : Int
deriving Repr, DecidableEq

/-- POST /api/notices/[id]/like on an existing notice: if the acting
user already likes it, delete the like row and decrement with
`GREATEST(like_count - 1, 0)`; otherwise insert a like row and increment
by one; the final stored `like_count` is read back and returned. -/
def noticeLikeToggle (st : NoticeLikeState) (userId : Nat) : LikeToggleResult :=
  if st.notice_likes.contains userId then
    let st2 : NoticeLikeState :=
      { like_count := max (st.like_count - 1) 0,
        notice_likes := st.notice_likes.filter (fun u => u ≠ userId) }
    { state := st2, liked := false, like_count := st2.like_count }
  else
    let st2 : NoticeLikeState :=
      { like_count := st.like_count + 1,
        notice_likes := st.notice_likes ++ [userId] }
    { state := st2, liked := true, like_count := st2.like_count }

/-- Fold of a sequence of like-toggle requests (each element the acting
user) over one notice's state. -/
def applyLikeToggles (st : NoticeLikeState) : List Nat → NoticeLikeState
  | [] => st
  | u :: us => applyLikeToggles (noticeLikeToggle st u).state us

/-! Helper lemmas -/

theorem foldlMin_le (xs : List Int) : ∀ (x : Int), ∀ a ∈ x :: xs, xs.foldl min x ≤ a := by
  induction xs with
  | nil => intro x a ha; simp at ha; simp [ha]
  | cons y ys ih =>
    intro x a ha
    simp only [List.mem_cons] at ha
    rcases ha with h | h | h
    · rw [h]
      exact le_trans (ih (min x y) (min x y) (by simp)) (min_le_left x y)
    · rw [h]
      exact le_trans (ih (min x y) (min x y) (by simp)) (min_le_right x y)
    · exact ih (min x y) a (by simp [h])

theorem foldlMin_mem (xs : List Int) : ∀ (x : Int), xs.foldl min x ∈ x :: xs := by
  induction xs with
  | nil => intro x; simp
  | cons y ys ih =>
    intro x
    have h := ih (min x y)
    simp only [List.foldl_cons]
    rcases List.mem_cons.mp h with h' | h'
    · rw [h']
      rcases min_choice x y with hc | hc <;> rw [hc] <;> simp
    · simp [h']

theorem highestLevelOf_le (auths : List Authority) (a : Authority) (ha : a ∈ auths) :
    highestLevelOf auths ≤ a.level := by
  cases auths with
  | nil => simp at ha
  | cons b bs =>
    have : a.level ∈ b.level :: bs.map Authority.level := by
      rcases List.mem_cons.mp ha with h | h
      · simp [h]
      · exact List.mem_cons_of_mem _ (List.mem_map_of_mem _ h)
    exact foldlMin_le (bs.map Authority.level) b.level a.level this

theorem highestLevelOf_mem (auths : List Authority) (h : auths ≠ []) :
    ∃ a ∈ auths, a.level = highestLevelOf auths := by
  cases auths with
  | nil => exact absurd rfl h
  | cons b bs =>
    have hm := foldlMin_mem (bs.map Authority.level) b.level
    rcases List.mem_cons.mp hm with h' | h'
    · exact ⟨b, by simp, h'.symm⟩
    · rcases List.mem_map.mp h' with ⟨a, ha, hla⟩
      exact ⟨a, List.mem_cons_of_mem _ ha, by rw [hla]; rfl⟩

/-! Claim theorems -/

/-- C3: for every content-creation request (notice or testimony) made
while the messaging provider is uninitialized, the operation still
succeeds with a non-null warning, no delivery attempt is made, and no
notification rows are written, because both pipelines gate on provider
availability before recipient enumeration. -/
theorem c3_unavailable_provider_gate (db : Db) (noticeId : Nat) (title : String)
    (testimonyId : Nat) (content : String) :
    noticeNotificationPhase false db noticeId title =
      { rows := [], deliveries := [], warning := some fcmUnavailableWarning,
        success := true } ∧
    testimonyNotificationPhase false db testimonyId content =
      { rows := [], deliveries := [], warning := some fcmUnavailableWarning,
        success := true } :=
  ⟨rfl, rfl⟩

/-- C7: for every user id that references no existing user row,
getUserAuthorities returns the not-found result (none), never a
default-filled set; and for every existing user it returns a set, so
not-found is distinct from found-with-zero-assignments. -/
theorem c7_resolve_not_found (db : Db) (userId : Nat) :
    ((∀ u ∈ db.users, u.id ≠ userId) → getUserAuthorities db userId = none) ∧
    ((∃ u ∈ db.users, u.id = userId) → (getUserAuthorities db userId).isSome) := by
  constructor
  · intro h
    have hf : db.users.find? (fun u => u.id == userId) = none := by
      rw [List.find?_eq_none]
      intro u hu
      simp only [beq_iff_eq]
      exact h u hu
    unfold getUserAuthorities
    rw [hf]
  · intro ⟨u, hu, hid⟩
    have hf : (db.users.find? (fun u => u.id == userId)).isSome := by
      rw [List.find?_isSome]
      exact ⟨u, hu, by simp [hid]⟩
    unfold getUserAuthorities
    rcases Option.isSome_iff_exists.mp hf with ⟨u0, hu0⟩
    rw [hu0]
    rfl

/-- Concrete database with a single user of id 1 and empty reference
data, used as a small test state. -/
def dbOneUser : Db :=
  { users := [{ id := 1, name := "A", fcm_token := none }],
    authorities := [], authority_categories := [], user_authorities := [],
    notifications := [] }

/-- C7 witness: in `dbOneUser` the missing id 2 resolves to the
not-found result and id 1 to a present result. -/
theorem c7_resolve_not_found_witness :
    getUserAuthorities dbOneUser 2 = none ∧
    (getUserAuthorities dbOneUser 1).isSome :=
  ⟨(c7_resolve_not_found dbOneUser 2).1 (by decide),
   (c7_resolve_not_found dbOneUser 1).2
     ⟨{ id := 1, name := "A", fcm_token := none }, by decide, rfl⟩⟩

/-- C10: the notice like-toggle preserves non-negativity of
`like_count`: starting from any non-negative stored count, every
sequence of toggles keeps the stored count non-negative, and the value
returned by one more toggle is also non-negative. -/
theorem c10_like_count_nonnegative (st : NoticeLikeState) (ops : List Nat)
    (u : Nat) (h : 0 ≤ st.like_count) :
    0 ≤ (applyLikeToggles st ops).like_count ∧
    0 ≤ (noticeLikeToggle (applyLikeToggles st ops) u).like_count := by
  have step : ∀ (s : NoticeLikeState) (v : Nat), 0 ≤ s.like_count →
      0 ≤ (noticeLikeToggle s v).state.like_count := by
    intro s v hs
    unfold noticeLikeToggle
    by_cases hc : s.notice_likes.contains v
    · simp only [hc, if_pos]
      exact le_max_right _ _
    · simp only [hc, if_neg, Bool.false_eq_true, not_false_eq_true]
      exact le_trans hs (by simp)
  have main : ∀ (l : List Nat) (s : NoticeLikeState), 0 ≤ s.like_count →
      0 ≤ (applyLikeToggles s l).like_count := by
    intro l
    induction l with
    | nil => intro s hs; exact hs
    | cons v vs ih =>
      intro s hs
      exact ih _ (step s v hs)
  refine ⟨main ops st h, ?_⟩
  have h2 := main ops st h
  have := step (applyLikeToggles st ops) u h2
  unfold noticeLikeToggle at this ⊢
  by_cases hc : (applyLikeToggles st ops).notice_likes.contains u <;>
    simp only [hc, if_pos, if_neg, Bool.false_eq_true, not_false_eq_true] at this ⊢ <;>
    exact this

/-- C10 witness: starting from a zero count, the toggle sequence
like, unlike, unlike-attempt keeps the stored and returned counts
non-negative. -/
theorem c10_like_count_nonnegative_witness :
    0 ≤ (applyLikeToggles { like_count := 0, notice_likes := [] } [7, 7]).like_count ∧
    0 ≤ (noticeLikeToggle (applyLikeToggles { like_count := 0, notice_likes := [] } [7, 7]) 7).like_count :=
  c10_like_count_nonnegative { like_count := 0, notice_likes := [] } [7, 7] 7 (by decide)

theorem mapEqSelf {α : Type} (f : α → α) (l : List α) (h : ∀ x ∈ l, f x = x) :
    l.map f = l := by
  induction l with
  | nil => rfl
  | cons a l ih =>
    simp only [List.map_cons, h a (by simp)]
    rw [ih (fun x hx => h x (by simp [hx]))]

theorem patchRead_404_of_filter_nil (db : Db) (userId notifId : Nat)
    (h : db.notifications.filter
      (fun n => n.id == notifId && n.user_id == userId && !n.is_read) = []) :
    patchNotificationRead db userId notifId =
      { status := 404, success := false, notifications := db.notifications,
        unread_count := none } := by
  unfold patchNotificationRead
  rw [h]
  rfl

theorem patchRead_notifications_of_filter_ne_nil (db : Db) (userId notifId : Nat)
    (hm : ¬ db.notifications.filter
      (fun n => n.id == notifId && n.user_id == userId && !n.is_read) = []) :
    (patchNotificationRead db userId notifId).notifications =
      db.notifications.map (fun n =>
        if n.id == notifId && n.user_id == userId && !n.is_read then
          { n with is_read := true }
        else n) := by
  unfold patchNotificationRead
  have hb : ((db.notifications.filter
      (fun n => n.id == notifId && n.user_id == userId && !n.is_read)).length == 0)
      = false := by
    simp only [beq_eq_false_iff_ne, ne_eq, List.length_eq_zero]
    exact hm
  simp only [hb]
  rfl

/-- C9: the single-mark-read operation is not an idempotent no-op
success: when no row matches (already read, another user's row, or a
non-existent id), PATCH returns the 404 error result and leaves the
table unchanged; and re-running the PATCH on its own output always
returns 404. -/
theorem c9_mark_read_not_idempotent (db : Db) (userId notifId : Nat) :
    ((∀ n ∈ db.notifications,
        ¬(n.id = notifId ∧ n.user_id = userId ∧ n.is_read = false)) →
      patchNotificationRead db userId notifId =
        { status := 404, success := false, notifications := db.notifications,
          unread_count := none }) ∧
    (patchNotificationRead
        { db with notifications := (patchNotificationRead db userId notifId).notifications }
        userId notifId).status = 404 := by
  constructor
  · intro h
    apply patchRead_404_of_filter_nil
    rw [List.filter_eq_nil_iff]
    intro n hn hcon
    simp only [Bool.and_eq_true, beq_iff_eq, Bool.not_eq_true'] at hcon
    exact h n hn (by tauto)
  · by_cases hm : db.notifications.filter
        (fun n => n.id == notifId && n.user_id == userId && !n.is_read) = []
    · have h1 := patchRead_404_of_filter_nil db userId notifId hm
      have h2 : (patchNotificationRead db userId notifId).notifications
          = db.notifications := by rw [h1]
      rw [patchRead_404_of_filter_nil _ userId notifId (by rw [h2]; exact hm)]
    · have hupd := patchRead_notifications_of_filter_ne_nil db userId notifId hm
      have hnil2 : ((patchNotificationRead db userId notifId).notifications).filter
          (fun n => n.id == notifId && n.user_id == userId && !n.is_read) = [] := by
        rw [hupd, List.filter_eq_nil_iff]
        intro n hn
        rcases List.mem_map.mp hn with ⟨m, hmem, hfm⟩
        by_cases hp : (m.id == notifId && m.user_id == userId && !m.is_read) = true
        · rw [if_pos hp] at hfm
          rw [← hfm]
          simp
        · rw [if_neg hp] at hfm
          rw [← hfm]
          exact hp
      rw [patchRead_404_of_filter_nil _ userId notifId hnil2]

/-- An already-read notification row for user 1. -/
def readRow : NotificationRow :=
  { id := 5, user_id := 1, title := "t", message := "m",
    ntype := "system", related_id := none, sender_id := none,
    sender_name := none, is_read := true }

/-- Concrete database whose only notification, for user 1, is already
read. -/
def dbReadNotif : Db :=
  { users := [], authorities := [], authority_categories := [],
    user_authorities := [], notifications := [readRow] }

/-- C9 witness: marking the already-read notification of `dbReadNotif`
yields the 404 result with the table unchanged. -/
theorem c9_mark_read_not_idempotent_witness :
    patchNotificationRead dbReadNotif 1 5 =
      { status := 404, success := false,
        notifications := dbReadNotif.notifications, unread_count := none } :=
  (c9_mark_read_not_idempotent dbReadNotif 1 5).1 (by decide)

/-- C4: a targeted notification-creation request whose recipient is the
acting user itself creates zero notification rows, schedules zero
deliveries, and still reports success (HTTP 200), given a well-formed
body (truthy recipient id, non-empty title and message, valid type) and
an existing recipient row. -/
theorem c4_self_notification_guard (db : Db) (actorId : Nat)
    (title message ntype : String) (related_id : Option Nat) (nextId : Nat)
    (hA : actorId ≠ 0) (ht : title ≠ "") (hm : message ≠ "")
    (hty : ntype ∈ validNotificationTypes)
    (hex : ∃ u ∈ db.users, u.id = actorId) :
    notificationsPost db actorId actorId title message ntype related_id nextId =
      { status := 200, success := true, inserted := [], deliveries := [] } := by
  have hne : ntype ≠ "" := by
    intro hc
    rw [hc] at hty
    simp [validNotificationTypes] at hty
  have h1 : (actorId == 0 || title == "" || message == "" || ntype == "") = false := by
    simp [hA, ht, hm, hne]
  have h2 : ((db.users.filter (fun u => u.id == actorId)).length == 0) = false := by
    rcases hex with ⟨u, hu, hid⟩
    have hmem : u ∈ db.users.filter (fun u => u.id == actorId) :=
      List.mem_filter.mpr ⟨hu, by simp [hid]⟩
    simp only [beq_eq_false_iff_ne, ne_eq, List.length_eq_zero]
    intro hcon
    rw [hcon] at hmem
    simp at hmem
  unfold notificationsPost
  rw [h1]
  simp only [Bool.false_eq_true, if_false]
  rw [if_neg (not_not_intro hty), h2]
  simp only [Bool.false_eq_true, if_false]
  rw [if_pos (by simp)]

/-- Concrete database with two users, used for the self-notification
witness. -/
def dbTwoUsers : Db :=
  { users := [{ id := 1, name := "A", fcm_token := none },
      { id := 2, name := "B", fcm_token := some "tok" }],
    authorities := [], authority_categories := [], user_authorities := [],
    notifications := [] }

/-- C4 witness: user 1 sending a like notification to itself in
`dbTwoUsers` yields success with no inserted rows and no deliveries. -/
theorem c4_self_notification_guard_witness :
    notificationsPost dbTwoUsers 1 1 "t" "m" "like" none 1 =
      { status := 200, success := true, inserted := [], deliveries := [] } :=
  c4_self_notification_guard dbTwoUsers 1 "t" "m" "like" none 1
    (by decide) (by decide) (by decide) (by decide)
    ⟨{ id := 1, name := "A", fcm_token := none }, by decide, rfl⟩

/-- C6: removeUserAuthority always reports success; it never deletes a
row (the assignment-table length is preserved); and on a (user,
authority) pair with no matching active assignment it is a no-op: the
database is unchanged, so every user's resolved authority set is
unchanged. -/
theorem c6_remove_authority_noop_success (db : Db) (userId authorityId : Nat) :
    (removeUserAuthority db userId authorityId).2 = true ∧
    (removeUserAuthority db userId authorityId).1.user_authorities.length =
      db.user_authorities.length ∧
    ((∀ ua ∈ db.user_authorities,
        ¬(ua.user_id = userId ∧ ua.authority_id = authorityId ∧ ua.is_active = true)) →
      removeUserAuthority db userId authorityId = (db, true) ∧
      ∀ uid, getUserAuthorities (removeUserAuthority db userId authorityId).1 uid =
        getUserAuthorities db uid) := by
  refine ⟨rfl, by simp [removeUserAuthority], ?_⟩
  intro h
  have hmap : db.user_authorities.map (fun ua =>
      if ua.user_id == userId && ua.authority_id == authorityId then
        { ua with is_active := false }
      else ua) = db.user_authorities := by
    apply mapEqSelf
    intro ua hua
    by_cases hp : (ua.user_id == userId && ua.authority_id == authorityId) = true
    · rw [if_pos hp]
      simp only [Bool.and_eq_true, beq_iff_eq] at hp
      have hina : ua.is_active = false := by
        rcases Bool.eq_false_or_eq_true ua.is_active with hb | hb
        · exact absurd ⟨hp.1, hp.2, hb⟩ (h ua hua)
        · exact hb
      cases ua
      simp_all
    · rw [if_neg hp]
  have hdb : removeUserAuthority db userId authorityId = (db, true) := by
    unfold removeUserAuthority
    rw [hmap]
  exact ⟨hdb, fun uid => by rw [hdb]⟩

/-- An inactive assignment of authority 3 to user 1. -/
def inactiveAssign : UserAuthority :=
  { id := 1, user_id := 1, authority_id := 3, assigned_at := 0,
    assigned_by := none, is_active := false }

/-- Concrete database with one inactive assignment of authority 3 to
user 1. -/
def dbInactiveAssign : Db :=
  { users := [{ id := 1, name := "A", fcm_token := none }],
    authorities := [], authority_categories := [],
    user_authorities := [inactiveAssign], notifications := [] }

/-- C6 witness: removing the non-active pair (1, 3) in
`dbInactiveAssign` succeeds, preserves the table, and leaves user 1's
resolved set unchanged. -/
theorem c6_remove_authority_noop_success_witness :
    removeUserAuthority dbInactiveAssign 1 3 = (dbInactiveAssign, true) ∧
    getUserAuthorities (removeUserAuthority dbInactiveAssign 1 3).1 1 =
      getUserAuthorities dbInactiveAssign 1 :=
  ⟨((c6_remove_authority_noop_success dbInactiveAssign 1 3).2.2 (by decide)).1,
   ((c6_remove_authority_noop_success dbInactiveAssign 1 3).2.2 (by decide)).2 1⟩

theorem fcmCharNotWs (c : Char) (h : isFcmTokenChar c = true) :
    isJsWhitespace c = false := by
  cases hb : isJsWhitespace c with
  | false => rfl
  | true =>
    exfalso
    simp only [isJsWhitespace, Bool.or_eq_true, beq_iff_eq] at hb
    rcases hb with ((((((rfl | rfl) | rfl) | rfl) | rfl) | rfl) | rfl) <;>
      exact absurd h (by decide)

theorem dropWhileEqSelf (p : Char → Bool) (l : List Char)
    (h : ∀ c ∈ l, p c = false) : l.dropWhile p = l := by
  cases l with
  | nil => rfl
  | cons a l =>
    rw [List.dropWhile_cons, h a (by simp)]
    simp

theorem jsTrimEqSelf (l : List Char) (h : ∀ c ∈ l, isJsWhitespace c = false) :
    jsTrim l = l := by
  unfold jsTrim
  rw [dropWhileEqSelf _ _ h,
    dropWhileEqSelf _ _ (fun c hc => h c (List.mem_reverse.mp hc)),
    List.reverse_reverse]

/-- C8: the pure token-validity predicate rejects the empty string,
rejects every 10-character string, rejects every 250-character string
containing a space, rejects the literal string "null", and accepts
every 150-character string composed only of alphanumerics, hyphen,
underscore, and colon whose lowercase form is not on the placeholder
denylist. -/
theorem c8_token_validity :
    (isValidFCMToken "" = false) ∧
    (∀ s : String, s.length = 10 → isValidFCMToken s = false) ∧
    (∀ s : String, s.length = 250 → ' ' ∈ s.data → isValidFCMToken s = false) ∧
    (isValidFCMToken "null" = false) ∧
    (∀ s : String, s.length = 150 → s.data.all isFcmTokenChar = true →
      ¬ (s.data.map jsToLowerChar) ∈ placeholderTokens → isValidFCMToken s = true) := by
  refine ⟨by decide, ?_, ?_, by decide, ?_⟩
  · intro s h
    have hd : s.data.length = 10 := h
    unfold isValidFCMToken
    by_cases h1 : s.data = []
    · rw [if_pos h1]
    · rw [if_neg h1]
      by_cases h2 : jsTrim s.data = []
      · rw [if_pos h2]
      · rw [if_neg h2, if_pos (Or.inl (by omega))]
  · intro s h hsp
    have hd : s.data.length = 250 := h
    unfold isValidFCMToken
    by_cases h1 : s.data = []
    · rw [if_pos h1]
    · rw [if_neg h1]
      by_cases h2 : jsTrim s.data = []
      · rw [if_pos h2]
      · have hall : ¬ (s.data.all isFcmTokenChar = true) := by
          intro hall
          exact absurd (List.all_eq_true.mp hall ' ' hsp) (by decide)
        rw [if_neg h2, if_neg (by omega : ¬(s.data.length < 100 ∨ s.data.length > 300)),
          if_pos hall]
  · intro s h hall hden
    have hd : s.data.length = 150 := h
    have hnws : ∀ c ∈ s.data, isJsWhitespace c = false := fun c hc =>
      fcmCharNotWs c (List.all_eq_true.mp hall c hc)
    unfold isValidFCMToken
    rw [if_neg (by intro hc; rw [hc] at hd; simp at hd),
      if_neg (by rw [jsTrimEqSelf _ hnws]; intro hc; rw [hc] at hd; simp at hd),
      if_neg (by omega : ¬(s.data.length < 100 ∨ s.data.length > 300)),
      if_neg (by rw [hall]; exact not_not_intro rfl),
      if_neg hden]

/-- A well-formed 150-character token. -/
def tok150 : String := ⟨List.replicate 150 'a'⟩

/-- A 250-character string whose last character is a space. -/
def tok250sp : String := ⟨List.replicate 249 'a' ++ [' ']⟩

set_option maxRecDepth 4096 in
/-- C8 witness: the predicate rejects a concrete 10-character string
and a concrete 250-character string containing a space, and accepts a
concrete well-formed 150-character token. -/
theorem c8_token_validity_witness :
    isValidFCMToken "abcdefghij" = false ∧
    isValidFCMToken tok250sp = false ∧
    isValidFCMToken tok150 = true :=
  ⟨c8_token_validity.2.1 "abcdefghij" (by decide),
   c8_token_validity.2.2.1 tok250sp (by decide) (by decide),
   c8_token_validity.2.2.2.2 tok150 (by decide) (by decide) (by decide)⟩

theorem testimonyLoop_counts (tid : Nat) (content : String) :
    ∀ (us : List (UserRow × String)) (nextId : Nat) (existing : List NotificationRow),
      (testimonyFanoutLoop tid content nextId existing us).1.length =
        us.countP (fun p => (validateToken p.2).isValid) ∧
      (testimonyFanoutLoop tid content nextId existing us).2.length =
        us.countP (fun p => (validateToken p.2).isValid) ∧
      ∀ d ∈ (testimonyFanoutLoop tid content nextId existing us).2,
        (validateToken d.2.1).isValid = true := by
  intro us
  induction us with
  | nil =>
    intro nextId existing
    exact ⟨rfl, rfl, by simp [testimonyFanoutLoop]⟩
  | cons p rest ih =>
    intro nextId existing
    obtain ⟨u, t⟩ := p
    by_cases hv : (validateToken t).isValid = true
    · have ih1 := ih (nextId + 1) (existing ++ [mkTestimonyRow tid content nextId u])
      simp only [testimonyFanoutLoop, hv, if_true, List.countP_cons, hv]
      refine ⟨?_, ?_, ?_⟩
      · simp [ih1.1]
      · simp [ih1.2.1]
      · intro d hd
        simp only [List.mem_cons] at hd
        rcases hd with rfl | hd
        · exact hv
        · exact ih1.2.2 d hd
    · have ih1 := ih nextId existing
      simp only [testimonyFanoutLoop, hv, if_false, List.countP_cons]
      refine ⟨?_, ?_, ih1.2.2⟩
      · simp [ih1.1, hv]
      · simp [ih1.2.1, hv]

theorem noticeLoop_counts (nid : Nat) (title : String) :
    ∀ (us : List (UserRow × String)) (nextId : Nat) (existing : List NotificationRow),
      (noticeFanoutLoop nid title nextId existing us).1.length = us.length ∧
      (noticeFanoutLoop nid title nextId existing us).2.length = us.length := by
  intro us
  induction us with
  | nil => intro nextId existing; exact ⟨rfl, rfl⟩
  | cons p rest ih =>
    intro nextId existing
    obtain ⟨u, t⟩ := p
    have ih1 := ih (nextId + 1) (existing ++ [mkNoticeRow nid title nextId u])
    simp only [noticeFanoutLoop, List.length_cons]
    exact ⟨by rw [ih1.1], by rw [ih1.2]⟩

/-- C2 (amended): in the testimony fan-out the number of notification
rows and of delivery-batch entries both equal the number of enumerated
recipients whose token passes validateToken, and every delivery entry
carries a valid token (invalid-token recipients are excluded entirely);
in the notice fan-out every enumerated recipient (any non-null,
non-empty token, with no shape validation) yields one notification row
and one delivery-batch entry. -/
theorem c2_fanout_counts (db : Db) (tid : Nat) (content : String)
    (nid : Nat) (title : String) :
    ((testimonyNotificationPhase true db tid content).rows.length =
      (usersWithToken db.users).countP (fun p => (validateToken p.2).isValid)) ∧
    ((testimonyNotificationPhase true db tid content).deliveries.length =
      (usersWithToken db.users).countP (fun p => (validateToken p.2).isValid)) ∧
    (∀ d ∈ (testimonyNotificationPhase true db tid content).deliveries,
      (validateToken d.2.1).isValid = true) ∧
    ((noticeNotificationPhase true db nid title).rows.length =
      (usersWithToken db.users).length) ∧
    ((noticeNotificationPhase true db nid title).deliveries.length =
      (usersWithToken db.users).length) := by
  have ht := testimonyLoop_counts tid content (usersWithToken db.users)
    (db.notifications.foldl (fun m n => max m n.id) 0 + 1) db.notifications
  have hn := noticeLoop_counts nid title (usersWithToken db.users)
    (db.notifications.foldl (fun m n => max m n.id) 0 + 1) db.notifications
  simp only [testimonyNotificationPhase, noticeNotificationPhase, Bool.not_true,
    Bool.false_eq_true, if_false]
  exact ⟨ht.1, ht.2.1, ht.2.2, hn.1, hn.2⟩

/-- Concrete database with a single user whose stored token is the
invalid placeholder string "null" (non-null and non-empty, so the
notice fan-out enumerates it). -/
def dbNullToken : Db :=
  { users := [{ id := 1, name := "U", fcm_token := some "null" }],
    authorities := [], authority_categories := [], user_authorities := [],
    notifications := [] }

/-- C2 counterexample: with one recipient holding the invalid token
"null" (so R = 0 valid recipients and I = 1 invalid), the notice
broadcast fan-out inserts 1 notification row and records 1 delivery
attempt instead of excluding the invalid-token recipient. -/
theorem c2_counterexample :
    isValidFCMToken "null" = false ∧
    (usersWithToken dbNullToken.users).countP
      (fun p => (validateToken p.2).isValid) = 0 ∧
    (noticeNotificationPhase true dbNullToken 10 "T").rows.length = 1 ∧
    (noticeNotificationPhase true dbNullToken 10 "T").deliveries.length = 1 := by
  decide

/-- C1 (amended): for every existing user, provided the default LEADER
authority (category MINISTRY) exists in the reference data,
getUserAuthorities returns a set whose authorities collection is
non-empty (genuine active assignments, or the synthesized default) and
whose highestAuthorityLevel equals the minimum level among the returned
entries. -/
theorem c1_resolve_nonempty_min (db : Db) (userId : Nat)
    (hex : ∃ u ∈ db.users, u.id = userId)
    (hdef : (getDefaultAuthority db).isSome) :
    ∃ r, getUserAuthorities db userId = some r ∧
      r.authorities ≠ [] ∧
      (∀ a ∈ r.authorities, r.highestAuthorityLevel ≤ a.level) ∧
      (∃ a ∈ r.authorities, a.level = r.highestAuthorityLevel) := by
  obtain ⟨u, hu, hid⟩ := hex
  have hf : (db.users.find? (fun u => u.id == userId)).isSome :=
    List.find?_isSome.mpr ⟨u, hu, by simp [hid]⟩
  rcases Option.isSome_iff_exists.mp hf with ⟨u0, hu0⟩
  rcases Option.isSome_iff_exists.mp hdef with ⟨d, hd⟩
  have heq : getUserAuthorities db userId = some {
      userId := u0.id
      userName := u0.name
      authorities := resolvedAuths db userId
      highestAuthorityLevel := highestLevelOf (resolvedAuths db userId)
      authorityDisplayNames :=
        if String.intercalate ", " ((resolvedAuths db userId).map Authority.display_name) == ""
        then "리더"
        else String.intercalate ", " ((resolvedAuths db userId).map Authority.display_name) } := by
    unfold getUserAuthorities
    rw [hu0]
  have hne : resolvedAuths db userId ≠ [] := by
    unfold resolvedAuths
    by_cases he : (resolvedFromRows (authorityRows db userId)).isEmpty
    · rw [if_pos he, hd]
      simp
    · rw [if_neg he]
      simpa [List.isEmpty_iff] using he
  refine ⟨_, heq, hne, ?_, ?_⟩
  · intro a ha
    exact highestLevelOf_le _ a ha
  · exact (highestLevelOf_mem _ hne).imp (fun a h => ⟨h.1, h.2⟩)

/-- The resolved set produced for an assignment-free user when the
default-LEADER reference row is missing: empty collection, sentinel
level 999. -/
def emptyResolvedSet : UserAuthoritiesResponse :=
  { userId := 1, userName := "A", authorities := [],
    highestAuthorityLevel := 999, authorityDisplayNames := "리더" }

/-- C1 counterexample: in a database whose reference tables are empty
(no LEADER authority to synthesize), the existing user 1 with zero
assignments resolves to a set whose authorities collection is empty and
whose highestAuthorityLevel is the sentinel 999 rather than a minimum
over returned entries — the claim's unconditional non-emptiness fails. -/
theorem c1_resolve_counterexample :
    getUserAuthorities dbOneUser 1 = some emptyResolvedSet ∧
    emptyResolvedSet.authorities = [] ∧
    emptyResolvedSet.highestAuthorityLevel = 999 := by
  decide

/-- The default LEADER authority row used in test databases. -/
def leaderAuthority : Authority :=
  { id := 5, category_id := 2, name := "LEADER", display_name := "리더",
    level := 6, is_active := true, created_at := 0 }

/-- Concrete database with one user, no assignments, and properly
configured default-LEADER reference data. -/
def dbWithDefault : Db :=
  { users := [{ id := 1, name := "A", fcm_token := none }],
    authorities := [leaderAuthority],
    authority_categories := [{ id := 2, name := "MINISTRY" }],
    user_authorities := [], notifications := [] }

/-- C1 witness: in `dbWithDefault`, the assignment-free user 1 resolves
to a non-empty set whose highest level is the minimum of the entries. -/
theorem c1_resolve_nonempty_min_witness :
    ∃ r, getUserAuthorities dbWithDefault 1 = some r ∧
      r.authorities ≠ [] ∧
      (∀ a ∈ r.authorities, r.highestAuthorityLevel ≤ a.level) ∧
      (∃ a ∈ r.authorities, a.level = r.highestAuthorityLevel) :=
  c1_resolve_nonempty_min dbWithDefault 1
    ⟨{ id := 1, name := "A", fcm_token := none }, by decide, rfl⟩ (by decide)

/-- Duplicate-key predicate of the user-authority upsert: the row
carries the given (user, authority) pair. -/
def pairMatch (u aid : Nat) (ua : UserAuthority) : Bool :=
  ua.user_id == u && ua.authority_id == aid

/-- Uniqueness of the (user, authority) pair across the assignment
table, as enforced by the table's unique key. -/
def pairKeyUnique (l : List UserAuthority) : Prop :=
  l.Pairwise (fun x y => ¬(x.user_id = y.user_id ∧ x.authority_id = y.authority_id))

theorem insertByLevel_perm (r : Option Authority) (l : List (Option Authority)) :
    List.Perm (insertByLevel r l) (r :: l) := by
  induction l with
  | nil => exact List.Perm.refl _
  | cons s ss ih =>
    unfold insertByLevel
    by_cases h : rowLevelLE r s = true
    · rw [if_pos h]
    · rw [if_neg h]
      exact List.Perm.trans (List.Perm.cons s ih) (List.Perm.swap r s ss)

theorem sortByLevel_perm (l : List (Option Authority)) :
    List.Perm (sortByLevel l) l := by
  induction l with
  | nil => exact List.Perm.refl _
  | cons r rs ih =>
    exact List.Perm.trans (insertByLevel_perm r (sortByLevel rs)) (List.Perm.cons r ih)

theorem countP_pairMatch_eq_one (u aid : Nat) (l : List UserAuthority)
    (huniq : pairKeyUnique l) (hany : l.any (pairMatch u aid) = true) :
    l.countP (pairMatch u aid) = 1 := by
  induction l with
  | nil => simp at hany
  | cons x xs ih =>
    unfold pairKeyUnique at huniq
    rw [List.pairwise_cons] at huniq
    by_cases hx : pairMatch u aid x = true
    · have hz : xs.countP (pairMatch u aid) = 0 := by
        rw [List.countP_eq_zero]
        intro y hy hyp
        simp only [pairMatch, Bool.and_eq_true, beq_iff_eq] at hx hyp
        exact huniq.1 y hy ⟨hx.1.trans hyp.1.symm, hx.2.trans hyp.2.symm⟩
      rw [List.countP_cons, hz, if_pos hx]
    · have hany2 : xs.any (pairMatch u aid) = true := by
        rcases List.any_eq_true.mp hany with ⟨y, hy, hyp⟩
        rcases List.mem_cons.mp hy with rfl | hy2
        · exact absurd hyp hx
        · exact List.any_eq_true.mpr ⟨y, hy2, hyp⟩
      rw [List.countP_cons, ih huniq.2 hany2, if_neg hx]

theorem addUserAuthority_any_pos (db : Db) (u aid b t : Nat)
    (h : db.user_authorities.any
      (fun ua => ua.user_id == u && ua.authority_id == aid) = true) :
    addUserAuthority db u aid b t =
      { db with
        user_authorities := db.user_authorities.map (fun ua =>
          if ua.user_id == u && ua.authority_id == aid then
            { ua with is_active := true, assigned_by := some b, assigned_at := t }
          else ua) } := by
  unfold addUserAuthority
  rw [if_pos h]

theorem addUserAuthority_any_neg (db : Db) (u aid b t : Nat)
    (h : db.user_authorities.any
      (fun ua => ua.user_id == u && ua.authority_id == aid) = false) :
    addUserAuthority db u aid b t =
      { db with
        user_authorities := db.user_authorities ++
          [{ id := maxAssignmentId db + 1, user_id := u, authority_id := aid,
             assigned_at := t, assigned_by := some b, is_active := true }] } := by
  unfold addUserAuthority
  rw [if_neg (by simp [h])]

theorem updPredEq (u aid b t : Nat) (x : UserAuthority) :
    (((if x.user_id == u && x.authority_id == aid then
        { x with is_active := true, assigned_by := some b, assigned_at := t }
      else x).user_id == u) &&
     ((if x.user_id == u && x.authority_id == aid then
        { x with is_active := true, assigned_by := some b, assigned_at := t }
      else x).authority_id == aid)) =
    (x.user_id == u && x.authority_id == aid) := by
  by_cases hx : (x.user_id == u && x.authority_id == aid) = true
  · rw [if_pos hx]
  · rw [if_neg hx]

theorem updUpdEq (u aid b b' t t' : Nat) (x : UserAuthority) :
    (if ((if x.user_id == u && x.authority_id == aid then
          { x with is_active := true, assigned_by := some b, assigned_at := t }
        else x).user_id == u &&
        (if x.user_id == u && x.authority_id == aid then
          { x with is_active := true, assigned_by := some b, assigned_at := t }
        else x).authority_id == aid) then
      { (if x.user_id == u && x.authority_id == aid then
          { x with is_active := true, assigned_by := some b, assigned_at := t }
        else x) with
        is_active := true, assigned_by := some b', assigned_at := t' }
    else (if x.user_id == u && x.authority_id == aid then
        { x with is_active := true, assigned_by := some b, assigned_at := t }
      else x)) =
    (if x.user_id == u && x.authority_id == aid then
      { x with is_active := true, assigned_by := some b', assigned_at := t' }
    else x) := by
  by_cases hx : (x.user_id == u && x.authority_id == aid) = true
  · simp [hx]
  · simp [hx]

theorem addUserAuthority_twice (db : Db) (u aid b b' t t' : Nat) :
    addUserAuthority (addUserAuthority db u aid b t) u aid b' t' =
      addUserAuthority db u aid b' t' := by
  by_cases hA : db.user_authorities.any
      (fun ua => ua.user_id == u && ua.authority_id == aid) = true
  · rcases List.any_eq_true.mp hA with ⟨x, hx, hPx⟩
    have hA2 : ((addUserAuthority db u aid b t).user_authorities.any
        (fun ua => ua.user_id == u && ua.authority_id == aid)) = true := by
      rw [addUserAuthority_any_pos db u aid b t hA]
      refine List.any_eq_true.mpr ⟨_, List.mem_map_of_mem _ hx, ?_⟩
      rw [updPredEq u aid b t x]
      exact hPx
    rw [addUserAuthority_any_pos _ u aid b' t' hA2,
      addUserAuthority_any_pos db u aid b t hA,
      addUserAuthority_any_pos db u aid b' t' hA]
    have hmaps : ((db.user_authorities.map (fun ua =>
        if ua.user_id == u && ua.authority_id == aid then
          { ua with is_active := true, assigned_by := some b, assigned_at := t }
        else ua)).map (fun ua =>
          if ua.user_id == u && ua.authority_id == aid then
            { ua with is_active := true, assigned_by := some b', assigned_at := t' }
          else ua)) =
        db.user_authorities.map (fun ua =>
          if ua.user_id == u && ua.authority_id == aid then
            { ua with is_active := true, assigned_by := some b', assigned_at := t' }
          else ua) := by
      rw [List.map_map]
      apply List.map_congr_left
      intro x _
      exact updUpdEq u aid b b' t t' x
    simp only [hmaps]
  · have hA' : db.user_authorities.any
        (fun ua => ua.user_id == u && ua.authority_id == aid) = false :=
      Bool.not_eq_true _ ▸ Bool.eq_false_iff.mpr hA
    have h1 := addUserAuthority_any_neg db u aid b t hA'
    have hA2 : ((addUserAuthority db u aid b t).user_authorities.any
        (fun ua => ua.user_id == u && ua.authority_id == aid)) = true := by
      rw [h1]
      refine List.any_eq_true.mpr ⟨_, List.mem_append_right _ (List.mem_singleton_self _), ?_⟩
      simp
    rw [addUserAuthority_any_pos _ u aid b' t' hA2, h1,
      addUserAuthority_any_neg db u aid b' t' hA']
    have hmape : (db.user_authorities.map (fun ua =>
        if ua.user_id == u && ua.authority_id == aid then
          { ua with is_active := true, assigned_by := some b', assigned_at := t' }
        else ua)) = db.user_authorities := by
      apply mapEqSelf
      intro x hx
      rw [if_neg]
      intro hPx
      have hcon : db.user_authorities.any
          (fun ua => ua.user_id == u && ua.authority_id == aid) = true :=
        List.any_eq_true.mpr ⟨x, hx, hPx⟩
      rw [hA'] at hcon
      exact Bool.false_ne_true hcon
    simp only [List.map_append, hmape, List.map_cons, List.map_nil]
    rw [if_pos (by simp)]

theorem addUserAuthority_users_eq (db : Db) (u aid b t : Nat) :
    (addUserAuthority db u aid b t).users = db.users := by
  unfold addUserAuthority
  split <;> rfl

theorem addUserAuthority_authorities_eq (db : Db) (u aid b t : Nat) :
    (addUserAuthority db u aid b t).authorities = db.authorities := by
  unfold addUserAuthority
  split <;> rfl

theorem addUserAuthority_active_count (db : Db) (u aid b t : Nat)
    (huniq : pairKeyUnique db.user_authorities) :
    ((addUserAuthority db u aid b t).user_authorities.countP
      (fun ua => pairMatch u aid ua && ua.is_active)) = 1 := by
  by_cases hA : db.user_authorities.any
      (fun ua => ua.user_id == u && ua.authority_id == aid) = true
  · rw [addUserAuthority_any_pos db u aid b t hA]
    simp only [List.countP_map]
    have hpt : ∀ x ∈ db.user_authorities,
        ((fun ua => pairMatch u aid ua && ua.is_active) ∘ (fun ua =>
          if ua.user_id == u && ua.authority_id == aid then
            { ua with is_active := true, assigned_by := some b, assigned_at := t }
          else ua)) x = pairMatch u aid x := by
      intro x _
      by_cases hx : (x.user_id == u && x.authority_id == aid) = true
      · have hx' : x.user_id = u ∧ x.authority_id = aid := by simpa using hx
        simp only [Function.comp_apply, if_pos hx]
        simp [pairMatch, hx'.1, hx'.2]
      · simp only [Function.comp_apply, if_neg hx]
        have hpm : pairMatch u aid x = false := Bool.eq_false_iff.mpr hx
        rw [hpm]
        simp
    rw [List.countP_congr (fun a ha => by rw [hpt a ha])]
    exact countP_pairMatch_eq_one u aid _ huniq hA
  · have hA' : db.user_authorities.any
        (fun ua => ua.user_id == u && ua.authority_id == aid) = false :=
      Bool.eq_false_iff.mpr hA
    rw [addUserAuthority_any_neg db u aid b t hA', List.countP_append]
    have h0 : db.user_authorities.countP
        (fun ua => pairMatch u aid ua && ua.is_active) = 0 := by
      rw [List.countP_eq_zero]
      intro x hx hc
      rw [Bool.and_eq_true] at hc
      have hcon : db.user_authorities.any
          (fun ua => ua.user_id == u && ua.authority_id == aid) = true :=
        List.any_eq_true.mpr ⟨x, hx, hc.1⟩
      rw [hA'] at hcon
      exact Bool.false_ne_true hcon
    rw [h0]
    simp [pairMatch]

theorem joinedPred_eq (db : Db) (u aid : Nat) (x : UserAuthority)
    (ha0 : ∃ a0 ∈ db.authorities, a0.id = aid) (haid : aid ≠ 0) :
    ((Option.map (fun a => a.id == aid)
        (match db.authorities.find? (fun a => a.id == x.authority_id) with
         | some a => if a.id ≠ 0 then some a else none
         | none => none)).getD false && (x.user_id == u && x.is_active)) =
      (pairMatch u aid x && x.is_active) := by
  rcases hfind : db.authorities.find? (fun a => a.id == x.authority_id) with _ | a
  · have hnm : x.authority_id ≠ aid := by
      intro hc
      obtain ⟨a0, ha0m, ha0id⟩ := ha0
      have hno := List.find?_eq_none.mp hfind a0 ha0m
      simp [ha0id, hc] at hno
    have hpm : pairMatch u aid x = false := by
      simp [pairMatch, hnm]
    rw [hfind]
    simp [hpm]
  · have ha := List.find?_some hfind
    simp only [beq_iff_eq] at ha
    rw [hfind]
    by_cases hida : x.authority_id = aid
    · have hz : a.id ≠ 0 := by
        rw [ha, hida]
        exact haid
      have hpa : (a.id == aid) = true := by
        simp [ha, hida]
      simp [pairMatch, hz, hpa, hida, Bool.and_assoc]
    · by_cases hz : a.id ≠ 0
      · have hpa : (a.id == aid) = false := by
          simp [ha, hida]
        simp [pairMatch, hz, hpa, hida]
      · simp [pairMatch, hz, hida]

theorem resolvedFromRows_countP_eq (db : Db) (u aid : Nat)
    (ha0 : ∃ a0 ∈ db.authorities, a0.id = aid) (haid : aid ≠ 0) :
    (resolvedFromRows (authorityRows db u)).countP (fun a => a.id == aid) =
      db.user_authorities.countP (fun ua => pairMatch u aid ua && ua.is_active) := by
  unfold resolvedFromRows authorityRows activeAssignments
  rw [List.countP_filterMap, (sortByLevel_perm _).countP_eq, List.countP_map,
    List.countP_filter]
  apply List.countP_congr
  intro x _
  rw [Function.comp_apply]
  rw [joinedPred_eq db u aid x ha0 haid]

/-- C5: addUserAuthority is idempotent: adding the same (user,
authority) pair twice equals adding it once (a prior assignment row for
the pair is updated in place, never duplicated), exactly one active
assignment row for the pair remains, and a subsequent resolve shows the
authority exactly once.  Hypotheses: the assignment table respects its
unique key, the user exists, and the (non-zero) authority id exists in
the reference data. -/
theorem c5_add_authority_idempotent (db : Db) (u aid b b' t t' : Nat)
    (huniq : pairKeyUnique db.user_authorities)
    (hex : ∃ w ∈ db.users, w.id = u)
    (ha0 : ∃ a0 ∈ db.authorities, a0.id = aid)
    (haid : aid ≠ 0) :
    addUserAuthority (addUserAuthority db u aid b t) u aid b' t' =
      addUserAuthority db u aid b' t' ∧
    ((addUserAuthority (addUserAuthority db u aid b t) u aid b' t').user_authorities.countP
      (fun ua => pairMatch u aid ua && ua.is_active)) = 1 ∧
    ∃ r, getUserAuthorities
        (addUserAuthority (addUserAuthority db u aid b t) u aid b' t') u = some r ∧
      r.authorities.countP (fun a => a.id == aid) = 1 := by
  have htwice := addUserAuthority_twice db u aid b b' t t'
  have hcount := addUserAuthority_active_count db u aid b' t' huniq
  refine ⟨htwice, by rw [htwice]; exact hcount, ?_⟩
  rw [htwice]
  obtain ⟨w, hw, hwid⟩ := hex
  have hf : ((addUserAuthority db u aid b' t').users.find? (fun x => x.id == u)).isSome := by
    rw [addUserAuthority_users_eq]
    exact List.find?_isSome.mpr ⟨w, hw, by simp [hwid]⟩
  rcases Option.isSome_iff_exists.mp hf with ⟨u0, hu0⟩
  have ha0' : ∃ a0 ∈ (addUserAuthority db u aid b' t').authorities, a0.id = aid := by
    rw [addUserAuthority_authorities_eq]
    exact ha0
  have hcnt : (resolvedFromRows (authorityRows (addUserAuthority db u aid b' t') u)).countP
      (fun a => a.id == aid) = 1 := by
    rw [resolvedFromRows_countP_eq _ u aid ha0' haid]
    exact hcount
  have hne : ¬ (resolvedFromRows
      (authorityRows (addUserAuthority db u aid b' t') u)).isEmpty = true := by
    intro hc
    rw [List.isEmpty_iff] at hc
    rw [hc] at hcnt
    simp at hcnt
  have hres : resolvedAuths (addUserAuthority db u aid b' t') u =
      resolvedFromRows (authorityRows (addUserAuthority db u aid b' t') u) := by
    unfold resolvedAuths
    rw [if_neg hne]
  have heq : getUserAuthorities (addUserAuthority db u aid b' t') u = some {
      userId := u0.id
      userName := u0.name
      authorities := resolvedAuths (addUserAuthority db u aid b' t') u
      highestAuthorityLevel :=
        highestLevelOf (resolvedAuths (addUserAuthority db u aid b' t') u)
      authorityDisplayNames :=
        if String.intercalate ", " ((resolvedAuths (addUserAuthority db u aid b' t') u).map
            Authority.display_name) == ""
        then "리더"
        else String.intercalate ", " ((resolvedAuths (addUserAuthority db u aid b' t') u).map
          Authority.display_name) } := by
    unfold getUserAuthorities
    rw [hu0]
  refine ⟨_, heq, ?_⟩
  rw [hres]
  exact hcnt

/-- C5 witness: in `dbWithDefault`, adding authority 5 to user 1 twice
equals adding it once, leaves one active assignment for the pair, and a
subsequent resolve shows authority 5 exactly once. -/
theorem c5_add_authority_idempotent_witness :
    addUserAuthority (addUserAuthority dbWithDefault 1 5 9 100) 1 5 9 200 =
      addUserAuthority dbWithDefault 1 5 9 200 ∧
    ((addUserAuthority (addUserAuthority dbWithDefault 1 5 9 100) 1 5 9 200).user_authorities.countP
      (fun ua => pairMatch 1 5 ua && ua.is_active)) = 1 ∧
    ∃ r, getUserAuthorities
        (addUserAuthority (addUserAuthority dbWithDefault 1 5 9 100) 1 5 9 200) 1 = some r ∧
      r.authorities.countP (fun a => a.id == 5) = 1 :=
  c5_add_authority_idempotent dbWithDefault 1 5 9 9 100 200
    (by unfold pairKeyUnique dbWithDefault; exact List.Pairwise.nil)
    ⟨{ id := 1, name := "A", fcm_token := none }, by decide, rfl⟩
    ⟨leaderAuthority, by decide, rfl⟩
    (by decide)
